import Mathlib

/-
  Verification of the nove NES emulator core (nove_core) against its
  natural-language specification.

  Shallow embedding conventions:
  - Rust u8 / u16 values are Nat with explicit wrap-around (`% 256`, `% 65536`)
    exactly where the Rust code wraps.
  - Array indexing that can panic in Rust is modelled with Option-returning
    accessors carrying the array bound; a `none` result models a panic.
  - Bitwise Rust operators map to the Nat bitwise operators; u8 bitwise NOT
    maps to `xor 255`.
-/

namespace Nove

/-! ## Flag register (nove_core/src/flag_register.rs)

  A `FlagRegister` is one byte; `raise` ors the flag mask in, `low` ands with
  the complement, `set_bit` picks between them, `is_raised` tests the mask. -/

/-- Bitwise NOT on a byte, Rust `!x` for `x : u8`. -/
def not8 (x : Nat) : Nat := x ^^^ 255

/-- FlagRegister::raise: `self.0 |= flag`. -/
def fr_raise (b flag : Nat) : Nat := b ||| flag

/-- FlagRegister::low: `self.0 &= !flag`. -/
def fr_low (b flag : Nat) : Nat := b &&& not8 flag

/-- FlagRegister::set_bit: raise or low depending on the boolean. -/
def fr_set_bit (b flag : Nat) (value : Bool) : Nat :=
  if value then fr_raise b flag else fr_low b flag

/-- FlagRegister::is_raised: `(self.0 & flag) != 0`. -/
def fr_is_raised (b flag : Nat) : Bool := decide (b &&& flag ≠ 0)

/-- FlagRegister::get_bit: 1 when raised else 0. -/
def fr_get_bit (b flag : Nat) : Nat := if fr_is_raised b flag then 1 else 0

/-! ## Processor status flags (nove_core/src/core/processor_status.rs) -/

def FlagCarry : Nat := 0x01
def FlagZero : Nat := 0x02
def FlagInterrupt : Nat := 0x04
def FlagBreak : Nat := 0x10
def FlagOne : Nat := 0x20
def FlagOverflow : Nat := 0x40
def FlagNegative : Nat := 0x80

/-- OVERFLOW_MASK from processor_status.rs: the sign-bit mask 0b1000_0000
    used inside the ADC overflow formula. -/
def OVERFLOW_MASK : Nat := 0x80

/-! ## Zero/negative flag updates (NoveCore::update_z / update_n / update_zn) -/

/-- NoveCore::update_z: raise Zero when the value is 0, lower it otherwise. -/
def update_z (ps value : Nat) : Nat :=
  if value = 0 then fr_raise ps FlagZero else fr_low ps FlagZero

/-- NoveCore::update_n: raise Negative when bit 7 of the value is set. -/
def update_n (ps value : Nat) : Nat :=
  if value &&& 0x80 ≠ 0 then fr_raise ps FlagNegative else fr_low ps FlagNegative

/-- NoveCore::update_zn: update_z then update_n. -/
def update_zn (ps value : Nat) : Nat := update_n (update_z ps value) value

/-! ## Compare (the compare! macro in nove_core/src/core.rs, used by
    CMP / CPX / CPY, built on Register::overflowing_sub, i.e. Rust
    u8::overflowing_sub: the wrapped difference together with the borrow
    bit `self < rhs`). -/

/-- Wrapped u8 subtraction, Rust `u8::wrapping_sub` for arguments below 256. -/
def wrapping_sub8 (a b : Nat) : Nat := (a + 256 - b) % 256

/-- Register::overflowing_sub, i.e. Rust u8::overflowing_sub:
    the pair of the wrapped difference and the flag `self < rhs`. -/
def overflowing_sub8 (a b : Nat) : Nat × Bool := (wrapping_sub8 a b, decide (a < b))

/-- The compare! macro body: subtract the memory operand from the register,
    store the overflowing_sub boolean into Carry, update Z and N from the
    wrapped difference. Returns the new processor status byte. -/
def compare (ps reg m : Nat) : Nat :=
  let r := overflowing_sub8 reg m
  update_zn (fr_set_bit ps FlagCarry r.2) r.1

/-! ## ADC and SBC (NoveCore::adc / NoveCore::sbc) -/

/-- Result of NoveCore::adc: the sum byte together with the updated
    processor status. `first = carry_bit.overflowing_add(a)`, then
    `first.0.overflowing_add(m)`; Carry is the disjunction of the two
    overflow bits and Overflow follows the masked bit-7 formula from the
    source. -/
def adc (ps a m : Nat) : Nat × Nat :=
  let c := fr_get_bit ps FlagCarry
  let first : Nat × Bool := ((c + a) % 256, decide (256 ≤ c + a))
  let result : Nat := (first.1 + m) % 256
  let carry : Bool := decide (256 ≤ first.1 + m)
  let ps1 := fr_set_bit ps FlagCarry (first.2 || carry)
  let ps2 := fr_set_bit ps1 FlagOverflow
    (decide (((a &&& m &&& not8 result) ||| (not8 a &&& not8 m &&& result)) &&& OVERFLOW_MASK ≠ 0))
  (result, ps2)

/-- Rust `u8::wrapping_neg` for an argument below 256. -/
def wrapping_neg8 (m : Nat) : Nat := (256 - m % 256) % 256

/-- NoveCore::sbc: `self.adc(m.wrapping_neg().wrapping_sub(1))`. -/
def sbc (ps a m : Nat) : Nat × Nat := adc ps a ((wrapping_neg8 m + 255) % 256)

/-! ## Memory (nove_core/src/core/memory.rs)

  The backing store is `[u8; MEMORY_SIZE]` with `MEMORY_SIZE = 0xFFFF`,
  so exactly the indices 0 .. 0xFFFE are valid; reading index 0xFFFF
  panics, which the Option accessor models as `none`. The contents are a
  total function and the accessor carries the bound. -/

def MEMORY_SIZE : Nat := 0xFFFF

def PC_START_ADDR : Nat := 0xFFFC

/-- Memory::read: `self.0[addr as usize]`, bound-checked like the Rust
    array indexing. -/
def mem_read (mem : Nat → Nat) (addr : Nat) : Option Nat :=
  if addr < MEMORY_SIZE then some (mem addr) else none

/-- Memory::read_u16: little-endian word from `addr` and
    `addr.wrapping_add(1)`. -/
def mem_read_u16 (mem : Nat → Nat) (addr : Nat) : Option Nat := do
  let lo ← mem_read mem addr
  let hi ← mem_read mem ((addr + 1) % 65536)
  pure (lo + 256 * hi)

/-! ## CPU state and addressing modes (nove_core/src/core.rs) -/

/-- Register file of NoveCore; every register is a byte or word held in a
    Nat, the memory map is the 0xFFFF-byte array contents. -/
structure NoveCore where
  pc : Nat
  sp : Nat
  a : Nat
  x : Nat
  y : Nat
  ps : Nat
  mem : Nat → Nat

/-- AddressingMode from nove_core/src/instruction/addressing_mode.rs. -/
inductive AddressingMode where
  | IMM | REL | ZPG | ZPX | ZPY | ABS | ABX | ABY | IND | IDX | IDY | IMP | ACC
deriving DecidableEq

/-- NoveCore::reset: load PC from 0xFFFC, reset SP, A, X, Y and PS to their
    Default values (StackPointer::default is STACK_START = 0xFF,
    ProcessorStatus::default is the zero byte). -/
def reset (core : NoveCore) : Option NoveCore := do
  let pc ← mem_read_u16 core.mem PC_START_ADDR
  pure { core with pc := pc, sp := 0xFF, a := 0, x := 0, y := 0, ps := 0 }

/-- NoveCore::next_byte: read at PC. -/
def next_byte (core : NoveCore) : Option Nat := mem_read core.mem core.pc

/-- NoveCore::next_word: read the little-endian word at PC. -/
def next_word (core : NoveCore) : Option Nat := mem_read_u16 core.mem core.pc

/-- NoveCore::get_addr, the effective-address resolver. Wrapping additions
    are u8 wraps inside the zero-page modes and u16 wraps elsewhere,
    exactly as in the source; the IND arm reproduces the 6502
    end-of-page read. -/
def get_addr (core : NoveCore) (mode : AddressingMode) : Option Nat :=
  match mode with
  | .IMM => some core.pc
  | .REL => do
      let b ← next_byte core
      pure ((core.pc + b) % 65536)
  | .ZPG => next_byte core
  | .ZPX => do
      let b ← next_byte core
      pure ((b + core.x) % 256)
  | .ZPY => do
      let b ← next_byte core
      pure ((b + core.y) % 256)
  | .ABS => next_word core
  | .ABX => do
      let w ← next_word core
      pure ((w + core.x) % 65536)
  | .ABY => do
      let w ← next_word core
      pure ((w + core.y) % 65536)
  | .IND => do
      let address ← next_word core
      if address &&& 0x00FF = 0x00FF then do
        let lo ← mem_read core.mem address
        let hi ← mem_read core.mem (address &&& 0xFF00)
        pure (lo + 256 * hi)
      else
        mem_read_u16 core.mem address
  | .IDX => do
      let b ← next_byte core
      mem_read_u16 core.mem ((b + core.x) % 256)
  | .IDY => do
      let b ← next_byte core
      mem_read_u16 core.mem ((b + core.y) % 256)
  | .IMP => some 0
  | .ACC => some 0

/-! ## Interrupt flag (nove_core/src/interrupt.rs) -/

/-- InterruptFlag: the tri-state cell shared between the CPU and the PPU. -/
inductive InterruptFlag where
  | None
  | NMI
  | BRK
deriving DecidableEq

/-! ## Cartridge mirroring tag (nove_core/src/cartridge.rs) -/

inductive Mirroring where
  | Vertical
  | Horizontal
  | FourScreen
deriving DecidableEq

/-! ## PPU address register (nove_core/src/ppu/address_register.rs) -/

/-- BytePointer: which half the next ADDR write lands in; Hi is the default. -/
inductive BytePointer where
  | Hi
  | Lo
deriving DecidableEq

/-- AddressRegister: the double-write 16-bit PPU address latch. -/
structure AddressRegister where
  hi : Nat
  lo : Nat
  ptr : BytePointer

/-- AddressRegister::get: `u16::from_be_bytes([hi, lo])`. -/
def AddressRegister.get (r : AddressRegister) : Nat := 256 * r.hi + r.lo

/-- AddressRegister::set: split a u16 value into big-endian halves. -/
def AddressRegister.set (r : AddressRegister) (val : Nat) : AddressRegister :=
  { r with hi := val / 256 % 256, lo := val % 256 }

/-- AddressRegister::mirror_down: mask the held address with the PPU limit
    0x3FFF when it exceeds it. -/
def AddressRegister.mirror_down (r : AddressRegister) : AddressRegister :=
  if r.get > 0x3FFF then r.set (r.get &&& 0x3FFF) else r

/-- AddressRegister::swap: flip the byte pointer. -/
def AddressRegister.swap (r : AddressRegister) : AddressRegister :=
  { r with ptr := match r.ptr with | .Hi => .Lo | .Lo => .Hi }

/-- AddressRegister::update (RegWrite::write): store into the selected
    half, mirror down, flip the pointer. -/
def AddressRegister.update (r : AddressRegister) (val : Nat) : AddressRegister :=
  let r := match r.ptr with
    | .Hi => { r with hi := val }
    | .Lo => { r with lo := val }
  r.mirror_down.swap

/-- AddressRegister::inc: `lo.overflowing_add(val)` with the carry bumping
    the high byte (u8 wrapping), then mirror down. -/
def AddressRegister.inc (r : AddressRegister) (val : Nat) : AddressRegister :=
  let res := (r.lo + val) % 256
  let ov : Bool := decide (256 ≤ r.lo + val)
  let r := if ov then { r with hi := (r.hi + 1) % 256 } else r
  ({ r with lo := res } : AddressRegister).mirror_down

/-- AddressRegister::reset: point the next write at the high byte. -/
def AddressRegister.reset (r : AddressRegister) : AddressRegister :=
  { r with ptr := .Hi }

/-! ## PPU scroll register (nove_core/src/ppu/scroll_register.rs) -/

/-- ScrollRegister: double-write X-then-Y register; ptrX true means the
    next write is the X byte (Axis::X is the default). -/
structure ScrollRegister where
  x : Nat
  y : Nat
  ptrX : Bool

/-- ScrollRegister write (RegWrite::write): store into the selected axis
    and flip the pointer. -/
def ScrollRegister.write (s : ScrollRegister) (val : Nat) : ScrollRegister :=
  if s.ptrX then { s with x := val, ptrX := false } else { s with y := val, ptrX := true }

/-- Modelled from the spec: `ScrollRegister::reset` is called by
    `Ppu::read_status` but its definition is absent from the snapshot of
    scroll_register.rs; the spec states that a STATUS read resets both
    double-write toggles, so reset points the next write back at X. -/
def ScrollRegister.reset (s : ScrollRegister) : ScrollRegister :=
  { s with ptrX := true }

/-! ## PPU palette table (nove_core/src/ppu/palette_table.rs)

  The table is 32 bytes; the accessors bound-check the index exactly as the
  Rust array indexing does, so an address whose offset from 0x3F00 reaches
  past 31 yields `none` (a panic). The callers only pass addresses at or
  above 0x3F00, so the truncated Nat subtraction agrees with the u16 one. -/

def palette_read (p : Nat → Nat) (addr : Nat) : Option Nat :=
  if h : addr = 0x3F10 ∨ addr = 0x3F14 ∨ addr = 0x3F18 ∨ addr = 0x3F1C then
    palette_read p (addr - 0x10)
  else if addr - 0x3F00 < 32 then some (p (addr - 0x3F00)) else none
termination_by addr
decreasing_by omega

def palette_write (p : Nat → Nat) (addr val : Nat) : Option (Nat → Nat) :=
  if h : addr = 0x3F10 ∨ addr = 0x3F14 ∨ addr = 0x3F18 ∨ addr = 0x3F1C then
    palette_write p (addr - 0x10) val
  else if addr - 0x3F00 < 32 then
    some (fun i => if i = addr - 0x3F00 then val else p i)
  else none
termination_by addr
decreasing_by omega

/-! ## PPU status and control flag masks (nove_core/src/ppu/status_register.rs,
    nove_core/src/ppu/controller_register.rs) -/

def SpriteOV : Nat := 0x20
def Sprite0Hit : Nat := 0x40
def VerticalBlankStarted : Nat := 0x80

def VramAddrIncrement : Nat := 0x04
def BGPatternAddr : Nat := 0x10
def GenerateNMI : Nat := 0x80

/-- ControllerRegister::vram_add_inc: 32 when the increment flag is raised,
    1 otherwise. -/
def vram_add_inc (ctrl : Nat) : Nat :=
  if fr_is_raised ctrl VramAddrIncrement then 32 else 1

/-! ## PPU core (nove_core/src/ppu.rs)

  CHR ROM is a length plus contents (a Rust Vec); VRAM is the 2048-byte
  array and the palette the 32-byte array, both held as contents with the
  bound enforced in the accessors. The OAM address register is a u8 cell,
  so the 256-entry OAM access through it is always in bounds. -/

structure Ppu where
  chrLen : Nat
  chr : Nat → Nat
  ctrl : Nat
  mask : Nat
  status : Nat
  oamAddr : Nat
  oamData : Nat → Nat
  scroll : ScrollRegister
  addr : AddressRegister
  palette : Nat → Nat
  vram : Nat → Nat
  mirroring : Mirroring
  internal_data_buffer : Nat
  scanline : Nat
  cycles : Nat
  cpu_interrupt : InterruptFlag

/-- Ppu::new: every register and counter defaults to zero, the address
    latch points at the high byte and the scroll latch at X. -/
def ppu_new (chrLen : Nat) (chr : Nat → Nat) (mirroring : Mirroring)
    (cpu_interrupt : InterruptFlag) : Ppu :=
  { chrLen := chrLen, chr := chr, ctrl := 0, mask := 0, status := 0,
    oamAddr := 0, oamData := fun _ => 0,
    scroll := { x := 0, y := 0, ptrX := true },
    addr := { hi := 0, lo := 0, ptr := .Hi },
    palette := fun _ => 0, vram := fun _ => 0, mirroring := mirroring,
    internal_data_buffer := 0, scanline := 0, cycles := 0,
    cpu_interrupt := cpu_interrupt }

/-- Bound-checked VRAM array read, `self.vram[i]` on the 2048-byte array. -/
def vram_get (v : Nat → Nat) (i : Nat) : Option Nat :=
  if i < 2048 then some (v i) else none

/-- Bound-checked VRAM array write. -/
def vram_set (v : Nat → Nat) (i val : Nat) : Option (Nat → Nat) :=
  if i < 2048 then some (fun j => if j = i then val else v j) else none

/-- Bound-checked CHR ROM read, `self.chr_rom[i]` on the Vec. -/
def chr_get (p : Ppu) (i : Nat) : Option Nat :=
  if i < p.chrLen then some (p.chr i) else none

/-- Ppu::mirror_vram: fold the address into the 4-KiB nametable index and
    subtract the mirrored table offset selected by the cartridge tag. -/
def mirror_vram (mirroring : Mirroring) (addr : Nat) : Nat :=
  let vram := (addr &&& 0x2FFF) - 0x2000
  let name_table := vram / 1024
  vram - (match mirroring, name_table with
    | .Vertical, 2 | .Vertical, 3 => 2 * 1024
    | .Horizontal, 1 | .Horizontal, 2 => 1024
    | .Horizontal, 3 => 2 * 1024
    | _, _ => 0)

/-- Ppu::inc_vram_addr: bump ADDR by the CTRL-selected stride. -/
def inc_vram_addr (p : Ppu) : Ppu :=
  { p with addr := p.addr.inc (vram_add_inc p.ctrl) }

/-- Ppu::read_and_store: return the buffered byte and refill the buffer. -/
def read_and_store (p : Ppu) (val : Nat) : Nat × Ppu :=
  (p.internal_data_buffer, { p with internal_data_buffer := val })

/-- Ppu::read_data: capture ADDR, increment it by the stride, then serve
    the read from CHR, mirrored VRAM or the palette; any other address
    panics (the `_` match arm), modelled as `none`. -/
def read_data (p : Ppu) : Option (Nat × Ppu) :=
  let addr := p.addr.get
  let p1 := inc_vram_addr p
  if addr ≤ 0x1FFF then (chr_get p1 addr).map (fun v => read_and_store p1 v)
  else if addr ≤ 0x2FFF then
    (vram_get p1.vram (mirror_vram p1.mirroring addr)).map (fun v => read_and_store p1 v)
  else if 0x3F00 ≤ addr ∧ addr ≤ 0x3FFF then
    (palette_read p1.palette addr).map (fun v => (v, p1))
  else none

/-- Ppu::read_status: hand out the status byte, then lower vblank and reset
    both double-write latches. -/
def read_status (p : Ppu) : Nat × Ppu :=
  (p.status,
    { p with status := fr_low p.status VerticalBlankStarted,
             addr := p.addr.reset, scroll := p.scroll.reset })

/-- Ppu::write_to_ctrl: store the byte; on a 0-to-1 edge of generate-NMI
    while vblank is already set, assert NMI immediately. -/
def write_to_ctrl (p : Ppu) (val : Nat) : Ppu :=
  let prev := fr_is_raised p.ctrl GenerateNMI
  let p1 := { p with ctrl := val }
  if (!prev) && fr_is_raised p1.ctrl GenerateNMI && fr_is_raised p1.status VerticalBlankStarted then
    { p1 with cpu_interrupt := .NMI }
  else p1

/-- Ppu::write_to_data: route the write to CHR (ignored), mirrored VRAM or
    the palette, then increment ADDR by the stride; other addresses panic. -/
def write_to_data (p : Ppu) (val : Nat) : Option Ppu := do
  let addr := p.addr.get
  let p1 ←
    if addr ≤ 0x1FFF then some p
    else if addr ≤ 0x2FFF then
      (vram_set p.vram (mirror_vram p.mirroring addr) val).map
        (fun v => { p with vram := v })
    else if 0x3F00 ≤ addr ∧ addr ≤ 0x3FFF then
      (palette_write p.palette addr val).map (fun pl => { p with palette := pl })
    else none
  pure (inc_vram_addr p1)

/-- Ppu::tick: one PPU dot. Entering scanline 241 raises vblank, lowers
    sprite0-hit and asserts NMI when CTRL.generate-NMI is raised; entering
    scanline 262 wraps to scanline 0, clears the flags and the interrupt
    cell, and reports a completed frame. -/
def tick (p : Ppu) : Ppu × Bool :=
  let cycles := p.cycles + 1
  if cycles = 341 then
    let scanline := p.scanline + 1
    if scanline = 241 then
      let status := fr_low (fr_raise p.status VerticalBlankStarted) Sprite0Hit
      let p1 := { p with cycles := 0, scanline := scanline, status := status }
      if fr_is_raised p.ctrl GenerateNMI then
        ({ p1 with cpu_interrupt := .NMI }, false)
      else (p1, false)
    else if scanline = 262 then
      ({ p with cycles := 0, scanline := 0, cpu_interrupt := .None,
                status := fr_low (fr_low p.status Sprite0Hit) VerticalBlankStarted }, true)
    else ({ p with cycles := 0, scanline := scanline }, false)
  else ({ p with cycles := cycles }, false)

/-- Iterated ticks: apply Ppu::tick n times, keeping the state. -/
def tickN (n : Nat) (p : Ppu) : Ppu :=
  match n with
  | 0 => p
  | n + 1 => (tick (tickN n p)).1

/-! ## Memory bus (nove_core/src/memory/bus.rs) -/

/-- Modelled from the spec: `addresses::ppu::OAM_DMA` is referenced by
    bus.rs but absent from the snapshot of addresses.rs; the spec register
    table gives OAMDMA the address 0x4014. -/
def OAM_DMA : Nat := 0x4014

/-- Bus: CPU RAM (2 KiB, named vram in the source), the PRG ROM Vec as a
    length plus contents, and the owned PPU. -/
structure Bus where
  vram : Nat → Nat
  prgLen : Nat
  prg : Nat → Nat
  ppu : Ppu

/-- Bus::read_rom: offset into PRG ROM, folding the upper half onto the
    lower one when only 16 KiB are present; bound-checked Vec access. -/
def read_rom (b : Bus) (addr : Nat) : Option Nat :=
  let a := addr - 0x8000
  let a := if b.prgLen = 0x4000 ∧ 0x4000 ≤ a then a % 0x4000 else a
  if a < b.prgLen then some (b.prg a) else none

/-- Modelled from the spec: the OAM registers live in ppu/oam.rs but the
    `Register` cell type (crate::register) is absent from the snapshot; the
    spec says OAMDATA writes store at OAMADDR and auto-increment it (a u8,
    hence wrapping at 256). -/
def oam_write (p : Ppu) (val : Nat) : Ppu :=
  { p with oamData := fun i => if i = p.oamAddr then val else p.oamData i,
           oamAddr := (p.oamAddr + 1) % 256 }

/-- Bus::read (Memory::read for Bus): the match arms in source order; a
    read of a write-only PPU register panics, modelled as `none`. The
    register-mirror arm re-enters with the address folded by 0x2007. -/
def busRead (b : Bus) (addr : Nat) : Option (Nat × Bus) :=
  if addr ≤ 0x1FFF then some (b.vram (addr &&& 0x07FF), b)
  else if addr = 0x2002 then
    let r := read_status b.ppu
    some (r.1, { b with ppu := r.2 })
  else if addr = 0x2004 then some (b.ppu.oamData b.ppu.oamAddr, b)
  else if addr = 0x2007 then (read_data b.ppu).map (fun r => (r.1, { b with ppu := r.2 }))
  else if h : 0x2008 ≤ addr ∧ addr ≤ 0x3FFF then busRead b (addr &&& 0x2007)
  else if 0x8000 ≤ addr ∧ addr ≤ 0xFFFF then (read_rom b addr).map (fun v => (v, b))
  else if addr = 0x2000 ∨ addr = 0x2001 ∨ addr = 0x2003 ∨ addr = 0x2005
          ∨ addr = 0x2006 ∨ addr = OAM_DMA then none
  else some (0, b)
termination_by addr
decreasing_by
  have h1 : addr &&& 0x2007 ≤ 0x2007 := Nat.and_le_right
  omega

/-- Bus::write (Memory::write for Bus): the match arms in source order; a
    write to STATUS or to PRG ROM panics, modelled as `none`. -/
def busWrite (b : Bus) (addr val : Nat) : Option Bus :=
  if addr ≤ 0x1FFF then
    some { b with vram := fun i => if i = (addr &&& 0x7FF) then val else b.vram i }
  else if addr = 0x2000 then some { b with ppu := write_to_ctrl b.ppu val }
  else if addr = 0x2001 then some { b with ppu := { b.ppu with mask := val } }
  else if addr = 0x2003 then some { b with ppu := { b.ppu with oamAddr := val } }
  else if addr = 0x2004 then some { b with ppu := oam_write b.ppu val }
  else if addr = 0x2005 then
    some { b with ppu := { b.ppu with scroll := b.ppu.scroll.write val } }
  else if addr = 0x2006 then
    some { b with ppu := { b.ppu with addr := b.ppu.addr.update val } }
  else if addr = 0x2007 then (write_to_data b.ppu val).map (fun p => { b with ppu := p })
  else if h : 0x2008 ≤ addr ∧ addr ≤ 0x3FFF then busWrite b (addr &&& 0x2007) val
  else if addr = 0x2002 ∨ (0x8000 ≤ addr ∧ addr ≤ 0xFFFF) then none
  else some b
termination_by addr
decreasing_by
  have h1 : addr &&& 0x2007 ≤ 0x2007 := Nat.and_le_right
  omega

/-! ## Tile reader (nove_core/src/ppu/tile_reader.rs)

  The 16-byte tile slice is held as its contents; every access the reader
  performs is at an index below 16 because the row counter is checked
  against 8 before the planes are reloaded. -/

structure TileReader where
  tile : Nat → Nat
  x : Nat
  y : Nat
  upper : Nat
  lower : Nat

/-- TileReader::new: start at the top-left with the two bit planes of
    row 0 loaded (`tile[0]` and `tile[8]`). -/
def TileReader.new (tile : Nat → Nat) : TileReader :=
  { tile := tile, x := 0, y := 0, upper := tile 0, lower := tile 8 }

/-- TileReader::next: on a finished row move to the next one (or stop after
    row 7), then emit bit 7 of both planes as a 2-bit value and shift the
    planes left (u8 shifts, wrapping at 256). -/
def TileReader.next (tr : TileReader) : Option (Nat × TileReader) :=
  let emit := fun (tr : TileReader) =>
    let val := (tr.upper &&& 0x80) >>> 6 ||| (tr.lower &&& 0x80) >>> 7
    some (val, { tr with x := tr.x + 1,
                         upper := (tr.upper <<< 1) % 256,
                         lower := (tr.lower <<< 1) % 256 })
  if tr.x = 8 then
    if tr.y + 1 = 8 then none
    else emit { tr with x := 0, y := tr.y + 1,
                        upper := tr.tile (tr.y + 1),
                        lower := tr.tile (tr.y + 1 + 8) }
  else emit tr

/-- Result of the (k+1)-th call to TileReader::next on the iterator built by
    TileReader::new: the emitted value together with the reader state. -/
def TileReader.run (tile : Nat → Nat) : Nat → Option (Nat × TileReader)
  | 0 => TileReader.next (TileReader.new tile)
  | k + 1 =>
    match TileReader.run tile k with
    | some (_, tr) => TileReader.next tr
    | none => none

/-- Closed form of the reader state right after the (k+1)-th successful
    call to TileReader::next (a proof artifact, not part of the source):
    the column counter has just been bumped past column k mod 8 of row
    k / 8 and both planes have been shifted accordingly. -/
def TileReader.afterState (tile : Nat → Nat) (k : Nat) : TileReader :=
  { tile := tile, x := k % 8 + 1, y := k / 8,
    upper := (tile (k / 8) <<< (k % 8 + 1)) % 256,
    lower := (tile (k / 8 + 8) <<< (k % 8 + 1)) % 256 }

/-! ## Concrete states used as counterexamples and witnesses -/

/-- Loaded core for the reset claim: the reset vector at 0xFFFC holds the
    word 0x8000 (as Memory::load_rom writes it) and the registers hold
    arbitrary nonzero junk. -/
def resetCore : NoveCore :=
  { pc := 0x1234, sp := 0x80, a := 1, x := 2, y := 3, ps := 0xFF,
    mem := fun addr => if addr = 0xFFFD then 0x80 else 0 }

/-- Core for the relative-mode claim: PC at 0x8000 with the branch operand
    byte 0xFF (the offset -1 in two's complement). -/
def relCore : NoveCore :=
  { pc := 0x8000, sp := 0, a := 0, x := 0, y := 0, ps := 0,
    mem := fun addr => if addr = 0x8000 then 0xFF else 0 }

/-- Core for the (Indirect),Y claim: operand byte 0x10, Y = 4,
    zero page pointer 0x10/0x11 holding 0x0200, and the cell 0x14/0x15
    holding 0x0030. -/
def idyCore : NoveCore :=
  { pc := 0, sp := 0, a := 0, x := 0, y := 4, ps := 0,
    mem := fun addr =>
      if addr = 0x00 then 0x10
      else if addr = 0x10 then 0x00
      else if addr = 0x11 then 0x02
      else if addr = 0x14 then 0x30
      else 0 }

/-- Core for the Indirect counterexample: the operand word at PC is the
    pointer 0xFFFF, whose low byte is 0xFF but which indexes past the
    0xFFFF-byte memory array. -/
def indTopCore : NoveCore :=
  { pc := 0x0200, sp := 0, a := 0, x := 0, y := 0, ps := 0,
    mem := fun addr =>
      if addr = 0x0200 then 0xFF else if addr = 0x0201 then 0xFF else 0 }

/-- Core for the Indirect witness, the spec scenario: JMP operand word
    0x03FF, mem[0x0300] = 0x12, mem[0x03FF] = 0x34, mem[0x0400] = 0x56. -/
def indBugCore : NoveCore :=
  { pc := 0x0200, sp := 0, a := 0, x := 0, y := 0, ps := 0,
    mem := fun addr =>
      if addr = 0x0200 then 0xFF
      else if addr = 0x0201 then 0x03
      else if addr = 0x0300 then 0x12
      else if addr = 0x03FF then 0x34
      else if addr = 0x0400 then 0x56
      else 0 }

/-- Initial PPU for the NMI-delivery scenario: the default PPU with the
    CTRL generate-NMI bit raised, as in the repository's nmi_interrupt
    test. -/
def nmiPpu : Ppu :=
  { ppu_new 0 (fun _ => 0) .Horizontal .None with ctrl := fr_raise 0 GenerateNMI }

/-- PPU for the DATA-read counterexample: ADDR holds 0x3000 and the data
    buffer holds 0x42. -/
def dataReadPpu : Ppu :=
  { ppu_new 0 (fun _ => 0) .Horizontal .None with
      addr := { hi := 0x30, lo := 0x00, ptr := .Hi },
      internal_data_buffer := 0x42 }

/-- PPU for the DATA-read witness: ADDR holds the VRAM address 0x2005, the
    cell vram[5] holds 0x07, the buffer holds 0x42 and CTRL selects the
    stride 32. -/
def dataReadWitnessPpu : Ppu :=
  { ppu_new 0 (fun _ => 0) .Horizontal .None with
      addr := { hi := 0x20, lo := 0x05, ptr := .Hi },
      vram := fun i => if i = 5 then 0x07 else 0,
      ctrl := VramAddrIncrement,
      internal_data_buffer := 0x42 }

/-- Tile used as the tile-reader witness: the 16-byte tile from the
    repository's tile_reader test. -/
def witnessTile : Nat → Nat := fun i =>
  [0x00, 0x55, 0x49, 0x11, 0x21, 0x41, 0x81, 0xFF,
   0xAA, 0x24, 0x88, 0x10, 0x20, 0x40, 0x80, 0x0F].getD i 0

/-! ## Helper lemmas -/

/-- Testing the sign bit of a byte through the 0x80 mask is testing bit 7. -/
lemma and_sign_ne_zero_iff (x : Nat) : x &&& 0x80 ≠ 0 ↔ x.testBit 7 = true := by
  have h : x &&& 0x80 = (x.testBit 7).toNat * 2 ^ 7 := Nat.and_two_pow x 7
  rw [h]
  cases hx : x.testBit 7 <;> simp [hx]

/-- Bit 7 of the ones-complement of a byte is the negation of bit 7. -/
lemma testBit_not8 (x : Nat) : (not8 x).testBit 7 = ! x.testBit 7 := by
  have h255 : (255 : Nat).testBit 7 = true := by decide
  simp [not8, Nat.testBit_xor, h255]

/-- The masked overflow formula of NoveCore::adc agrees with the xor
    formulation from the specification. -/
lemma overflow_formula (a m r : Nat) :
    (((a &&& m &&& not8 r) ||| (not8 a &&& not8 m &&& r)) &&& 0x80 ≠ 0)
      ↔ (((a ^^^ r) &&& (m ^^^ r) &&& 0x80) ≠ 0) := by
  rw [and_sign_ne_zero_iff, and_sign_ne_zero_iff]
  simp only [Nat.testBit_and, Nat.testBit_or, Nat.testBit_xor, testBit_not8]
  cases a.testBit 7 <;> cases m.testBit 7 <;> cases r.testBit 7 <;> decide

/-- Setting a single-bit flag and then testing the same flag returns the
    boolean that was stored, for flag positions below 8. -/
lemma fr_is_raised_set_bit_self (ps i : Nat) (v : Bool) (hi : i < 8) :
    fr_is_raised (fr_set_bit ps (2 ^ i) v) (2 ^ i) = v := by
  have h255 : (255 : Nat).testBit i = true := by interval_cases i <;> decide
  have hand : ∀ x : Nat, x &&& 2 ^ i = (x.testBit i).toNat * 2 ^ i :=
    fun x => Nat.and_two_pow x i
  cases v
  · simp only [fr_set_bit, fr_low, fr_is_raised, not8, if_neg]
    rw [hand]
    simp [Nat.testBit_and, Nat.testBit_xor, h255, Nat.testBit_two_pow_self]
  · simp only [fr_set_bit, fr_raise, fr_is_raised, if_pos]
    rw [hand]
    simp [Nat.testBit_or, Nat.testBit_two_pow_self]

/-- Setting the Overflow flag then testing it returns the stored value. -/
lemma fr_overflow_set (ps : Nat) (v : Bool) :
    fr_is_raised (fr_set_bit ps FlagOverflow v) FlagOverflow = v := by
  have h : FlagOverflow = 2 ^ 6 := by norm_num [FlagOverflow]
  rw [h]
  exact fr_is_raised_set_bit_self ps 6 v (by norm_num)

set_option maxRecDepth 4096 in
/-- Ones-complement identity for the SBC operand transformation:
    wrapping_neg followed by wrapping_sub(1) is xor with 0xFF. -/
lemma wrapping_neg_sub_one (m : Nat) (hm : m < 256) :
    (wrapping_neg8 m + 255) % 256 = m ^^^ 0xFF := by
  revert hm
  revert m
  decide

/-! ## C1 -/

/-- C1: the claim states that after CMP/CPX/CPY the carry flag is set
    exactly when reg ≥ M. The compare! macro instead stores the borrow bit
    of u8::overflowing_sub into Carry: with reg = 0x20 ≥ M = 0x10 the carry
    flag ends lowered, and with reg = 0x00 < M = 0xFF it ends raised — the
    exact opposite of the claim at both inputs. -/
theorem c1_compare_carry_inverted :
    (0x10 ≤ 0x20 ∧ fr_is_raised (compare 0 0x20 0x10) FlagCarry = false)
      ∧ (0x00 < 0xFF ∧ fr_is_raised (compare 0 0x00 0xFF) FlagCarry = true) := by
  decide

/-! ## C2 -/

/-- C2 counterexample: on the concrete loaded core, reset leaves
    SP = 0xFF (not the claimed 0xFD) and the status byte 0x00 (not the
    claimed 0x24). -/
theorem c2_reset_counterexample :
    (reset resetCore).map NoveCore.sp = some 0xFF ∧ (0xFF : Nat) ≠ 0xFD
      ∧ (reset resetCore).map NoveCore.ps = some 0x00 ∧ (0x00 : Nat) ≠ 0x24 := by
  decide

/-- C2 amended: after reset() on any core, the program counter equals the
    little-endian word stored at 0xFFFC, the stack pointer equals 0xFF,
    the processor status byte equals 0x00, and A, X and Y are all 0. -/
theorem c2_reset_amended (core : NoveCore) :
    reset core = some { core with
      pc := core.mem 0xFFFC + 256 * core.mem 0xFFFD,
      sp := 0xFF, a := 0, x := 0, y := 0, ps := 0 } := by
  simp [reset, mem_read_u16, mem_read, MEMORY_SIZE, PC_START_ADDR]

/-! ## C3 -/

/-- C3: the claim states that Relative resolution adds the sign-extended
    operand byte to PC. The source zero-extends the byte instead: with
    PC = 0x8000 and operand byte 0xFF the resolver yields 0x80FF, while
    sign extension would yield (0x8000 + 0xFFFF) mod 2^16 = 0x7FFF, and
    the resolved address does not lie before PC. -/
theorem c3_relative_zero_extended :
    get_addr relCore .REL = some 0x80FF
      ∧ (0x8000 + 0xFFFF) % 65536 = 0x7FFF
      ∧ (0x80FF : Nat) ≠ 0x7FFF
      ∧ ¬ (0x80FF < 0x8000) := by
  decide

/-! ## C4 -/

/-- C4: the claim states that (Indirect),Y dereferences the zero-page
    pointer first and adds Y afterwards. The source adds Y to the operand
    byte before dereferencing and never adds it to the pointer: on the
    concrete core the resolver yields mem16[0x14] = 0x0030, while
    post-indexing would yield mem16[0x10] + Y = 0x0200 + 4 = 0x0204. -/
theorem c4_idy_preindexed :
    get_addr idyCore .IDY = some 0x0030
      ∧ (idyCore.mem 0x10 + 256 * idyCore.mem 0x11 + idyCore.y) % 65536 = 0x0204
      ∧ (0x0030 : Nat) ≠ 0x0204 := by
  decide

/-! ## C5 -/

/-- C5 counterexample: the pointer 0xFFFF has low byte 0xFF, yet the
    resolver produces no address at all: the memory array holds only
    0xFFFF bytes (its size constant, despite the 64 KiB comment), so the
    low-byte read at 0xFFFF panics. -/
theorem c5_ind_top_counterexample :
    next_word indTopCore = some 0xFFFF
      ∧ 0xFFFF &&& 0x00FF = 0x00FF
      ∧ get_addr indTopCore .IND = none := by
  decide

/-- C5 amended: for every CPU state whose Indirect operand word is a
    pointer with low byte 0xFF below 0xFFFF, the effective address is
    assembled from the low byte at the pointer and the high byte at the
    start of the same page; for a pointer whose low byte is not 0xFF (and
    whose successor stays inside the memory array) the two bytes are read
    consecutively. -/
theorem c5_ind_bug_amended (core : NoveCore) (ptr : Nat)
    (hw : next_word core = some ptr) :
    (ptr &&& 0x00FF = 0x00FF → ptr < 0xFFFF →
      get_addr core .IND = some (core.mem ptr + 256 * core.mem (ptr &&& 0xFF00)))
    ∧ (ptr &&& 0x00FF ≠ 0x00FF → ptr + 1 < 0xFFFF →
      get_addr core .IND = some (core.mem ptr + 256 * core.mem (ptr + 1))) := by
  constructor
  · intro hlow hlt
    have hhi : ptr &&& 0xFF00 < 0xFFFF :=
      lt_of_le_of_lt (Nat.and_le_right) (by norm_num)
    simp [get_addr, hw, hlow, mem_read, MEMORY_SIZE, hlt, hhi]
  · intro hlow hlt
    have h1 : ptr < 0xFFFF := by omega
    have h2 : (ptr + 1) % 65536 = ptr + 1 := Nat.mod_eq_of_lt (by omega)
    simp [get_addr, hw, hlow, mem_read_u16, mem_read, MEMORY_SIZE, h1, h2, hlt]

/-- C5 witness: the spec scenario for the indirect-JMP bug, on the core
    with operand word 0x03FF: the effective address is 0x1234, taking its
    high byte from 0x0300 rather than 0x0400. -/
theorem c5_ind_bug_witness :
    next_word indBugCore = some 0x03FF
      ∧ get_addr indBugCore .IND = some 0x1234 := by
  refine ⟨by decide, ?_⟩
  have h := (c5_ind_bug_amended indBugCore 0x03FF (by decide)).1 (by decide) (by decide)
  rw [h]
  decide

/-! ## C6 -/

/-- C6: for every pre-instruction accumulator A, operand M and status byte,
    the ADC result is (A + M + C) mod 256, the overflow flag after ADC
    equals the xor formula ((A ^ result) & (M ^ result) & 0x80) ≠ 0, and
    SBC on M is exactly ADC on the ones-complement of M. -/
theorem c6_adc_overflow_sbc (ps a m r psOut : Nat) (ha : a < 256) (hm : m < 256)
    (h : adc ps a m = (r, psOut)) :
    r = (a + m + fr_get_bit ps FlagCarry) % 256
      ∧ (fr_is_raised psOut FlagOverflow
          = decide (((a ^^^ r) &&& (m ^^^ r) &&& 0x80) ≠ 0))
      ∧ sbc ps a m = adc ps a (m ^^^ 0xFF) := by
  simp only [adc, Prod.mk.injEq] at h
  obtain ⟨hr, hps⟩ := h
  subst hr
  subst hps
  refine ⟨by omega, ?_, ?_⟩
  · rw [fr_overflow_set]
    simp only [OVERFLOW_MASK]
    exact decide_eq_decide.mpr (overflow_formula a m _)
  · show adc ps a ((wrapping_neg8 m + 255) % 256) = adc ps a (m ^^^ 0xFF)
    rw [wrapping_neg_sub_one m hm]

/-- C6 witness: the theorem applied at the spec scenario ps = 0, A = 0x7F,
    M = 0x01 (the signed-overflow example), where adc yields the result
    0x80 with the Overflow flag raised. -/
theorem c6_adc_overflow_sbc_witness :
    (0x80 : Nat) = (0x7F + 0x01 + fr_get_bit 0 FlagCarry) % 256
      ∧ (fr_is_raised 0x40 FlagOverflow
          = decide (((0x7F ^^^ 0x80) &&& (0x01 ^^^ 0x80) &&& 0x80) ≠ 0))
      ∧ sbc 0 0x7F 0x01 = adc 0 0x7F (0x01 ^^^ 0xFF) :=
  c6_adc_overflow_sbc 0 0x7F 0x01 0x80 0x40 (by decide) (by decide) (by decide)

/-! ## C7 -/

/-- Away from the scanline boundary a tick only advances the dot counter. -/
lemma tick_mid (p : Ppu) (h : p.cycles + 1 ≠ 341) :
    tick p = ({ p with cycles := p.cycles + 1 }, false) := by
  simp [tick, h]

/-- Iterating ticks from dot 0 stays inside the scanline up to dot 340. -/
lemma tickN_mid (p : Ppu) (h : p.cycles = 0) :
    ∀ j, j ≤ 340 → tickN j p = { p with cycles := j } := by
  intro j hj
  induction j with
  | zero =>
    simp only [tickN]
    cases p
    simp_all
  | succ n ih =>
    rw [tickN, ih (by omega), tick_mid _ (by simp; omega)]

/-- Splitting an iterated tick run. -/
lemma tickN_add (m n : Nat) (p : Ppu) : tickN (m + n) p = tickN n (tickN m p) := by
  induction n with
  | zero => rfl
  | succ k ih => rw [show m + (k + 1) = (m + k) + 1 by ring, tickN, ih, tickN]

/-- A full scanline of 341 ticks from dot 0 advances the scanline counter
    by one, as long as the new scanline is below 241. -/
lemma tickN_scanline_step (p : Ppu) (h0 : p.cycles = 0) (hs : p.scanline + 1 < 241) :
    tickN 341 p = { p with cycles := 0, scanline := p.scanline + 1 } := by
  show (tick (tickN 340 p)).1 = _
  rw [tickN_mid p h0 340 le_rfl]
  simp only [tick]
  rw [if_pos (by simp), if_neg (by simp; omega), if_neg (by simp; omega)]

/-- Whole frames: after k complete scanlines the PPU sits at dot 0 of
    scanline k, for k up to 240. -/
lemma tickN_frames : ∀ k, k ≤ 240 →
    tickN (341 * k) nmiPpu = { nmiPpu with cycles := 0, scanline := k } := by
  intro k hk
  induction k with
  | zero => rfl
  | succ n ih =>
    rw [show 341 * (n + 1) = 341 * n + 341 by ring, tickN_add, ih (by omega),
      tickN_scanline_step _ rfl (by simp; omega)]

set_option maxRecDepth 4096 in
/-- C7: whenever a tick enters scanline 241 (dot counter at 340 and
    scanline counter at 240), the new state has the vblank status bit
    raised, the sprite0-hit bit lowered, and the shared interrupt cell
    holds NMI exactly when CTRL generate-NMI is raised; and from the
    initial PPU with generate-NMI set, after exactly 341 × 241 ticks the
    interrupt cell equals NMI. -/
theorem c7_scanline241_nmi :
    (∀ p : Ppu, p.cycles = 340 → p.scanline = 240 →
      (tick p).1.status.testBit 7 = true
        ∧ (tick p).1.status.testBit 6 = false
        ∧ (tick p).1.cpu_interrupt =
            (if fr_is_raised p.ctrl GenerateNMI then InterruptFlag.NMI else p.cpu_interrupt))
    ∧ (tickN (341 * 241) nmiPpu).cpu_interrupt = InterruptFlag.NMI := by
  constructor
  · intro p h0 hs
    have hb7 : ∀ s : Nat, (fr_low (fr_raise s VerticalBlankStarted) Sprite0Hit).testBit 7 = true := by
      intro s
      have h1 : (VerticalBlankStarted : Nat).testBit 7 = true := by decide
      have h2 : (not8 Sprite0Hit).testBit 7 = true := by decide
      simp [fr_low, fr_raise, Nat.testBit_and, Nat.testBit_or, h1, h2]
    have hb6 : ∀ s : Nat, (fr_low (fr_raise s VerticalBlankStarted) Sprite0Hit).testBit 6 = false := by
      intro s
      have h2 : (not8 Sprite0Hit).testBit 6 = false := by decide
      simp [fr_low, fr_raise, Nat.testBit_and, Nat.testBit_or, h2]
    by_cases hc : fr_is_raised p.ctrl GenerateNMI <;>
      simp [tick, h0, hs, hc, hb7, hb6]
  · rw [show 341 * 241 = 341 * 240 + 341 by norm_num]
    rw [tickN_add]
    rw [tickN_frames 240 le_rfl]
    rw [show (341 : Nat) = 340 + 1 by norm_num]
    rw [tickN]
    rw [tickN_mid _ rfl 340 le_rfl]
    simp [tick, nmiPpu, ppu_new, fr_is_raised, fr_raise, GenerateNMI]

/-- C7 witness: the general scanline-241 statement applied at the concrete
    state sitting at dot 340 of scanline 240 with generate-NMI raised. -/
theorem c7_scanline241_nmi_witness :
    (tick { nmiPpu with cycles := 340, scanline := 240 }).1.status.testBit 7 = true
      ∧ (tick { nmiPpu with cycles := 340, scanline := 240 }).1.status.testBit 6 = false
      ∧ (tick { nmiPpu with cycles := 340, scanline := 240 }).1.cpu_interrupt =
          (if fr_is_raised { nmiPpu with cycles := 340, scanline := 240 }.ctrl GenerateNMI
            then InterruptFlag.NMI
            else { nmiPpu with cycles := 340, scanline := 240 }.cpu_interrupt) :=
  c7_scanline241_nmi.1 { nmiPpu with cycles := 340, scanline := 240 } rfl rfl

/-! ## C8 -/

/-- Masking with 0x3FFF is reduction modulo 0x4000. -/
lemma and_3FFF (n : Nat) : n &&& 0x3FFF = n % 0x4000 := by
  have h := Nat.and_pow_two_sub_one_eq_mod n 14
  norm_num at h
  exact h

/-- Masking with 0x2FFF is the identity on the VRAM window. -/
lemma and_2FFF_of_range (addr : Nat) (h1 : 0x2000 ≤ addr) (h2 : addr ≤ 0x2FFF) :
    addr &&& 0x2FFF = addr := by
  apply Nat.eq_of_testBit_eq
  intro i
  rw [Nat.testBit_and]
  rcases Nat.lt_or_ge i 14 with hi | hi
  · by_cases h12 : i = 12
    · subst h12
      have ha : addr.testBit 12 = false := by
        rw [Nat.testBit_to_div_mod]
        simp only [decide_eq_false_iff_not]
        omega
      simp [ha]
    · have hm : Nat.testBit 0x2FFF i = true := by
        have hall : ∀ j, j < 14 → j ≠ 12 → Nat.testBit 0x2FFF j = true := by decide
        exact hall i hi h12
      simp [hm]
  · have hpow : (16384 : Nat) ≤ 2 ^ i :=
      le_trans (by norm_num) (Nat.pow_le_pow_right (by norm_num) hi)
    have ha : addr.testBit i = false := Nat.testBit_lt_two_pow (by omega)
    have hm : Nat.testBit 0x2FFF i = false := Nat.testBit_lt_two_pow (by omega)
    simp [ha, hm]

/-- The folded VRAM index stays inside the 2048-byte array for the
    vertical and horizontal mirroring modes. -/
lemma mirror_vram_lt (m : Mirroring) (addr : Nat) (hm : m ≠ .FourScreen)
    (h1 : 0x2000 ≤ addr) (h2 : addr ≤ 0x2FFF) : mirror_vram m addr < 2048 := by
  unfold mirror_vram
  rw [and_2FFF_of_range addr h1 h2]
  have hq : addr - 0x2000 < 4096 := by omega
  rcases (show (addr - 0x2000) / 1024 = 0 ∨ (addr - 0x2000) / 1024 = 1
      ∨ (addr - 0x2000) / 1024 = 2 ∨ (addr - 0x2000) / 1024 = 3 by omega)
    with h | h | h | h <;>
    cases m <;> simp_all <;> omega

/-- ADDR increment: for an in-range latch the new 16-bit value is the old
    one plus the stride, reduced modulo 0x4000 by mirror_down. -/
lemma addr_inc_get (r : AddressRegister) (s : Nat) (hhi : r.hi < 256) (hlo : r.lo < 256)
    (hget : r.get ≤ 0x3FFF) (hs : s ≤ 32) :
    (r.inc s).get = (r.get + s) % 0x4000 := by
  have hhi2 : r.hi ≤ 0x3F := by
    simp only [AddressRegister.get] at hget
    omega
  simp only [AddressRegister.get] at hget ⊢
  simp only [AddressRegister.inc, AddressRegister.mirror_down, AddressRegister.set,
    AddressRegister.get, and_3FFF]
  split_ifs with hov hm1 hm2 <;>
    simp_all only [decide_eq_true_eq, AddressRegister.get] <;>
    omega

/-- A palette read succeeds on the 32-byte window 0x3F00–0x3F1F. -/
lemma palette_read_range (pal : Nat → Nat) (addr : Nat)
    (h1 : 0x3F00 ≤ addr) (h2 : addr ≤ 0x3F1F) : (palette_read pal addr).isSome = true := by
  rw [palette_read]
  split
  · next h =>
    rw [palette_read]
    split
    · next h' => omega
    · next h' =>
      rw [if_pos (by omega)]
      rfl
  · next h =>
    rw [if_pos (by omega)]
    rfl

/-- C8 counterexample: a DATA read with ADDR holding 0x3000 (inside the
    0x0000–0x3EFF region of the claim) does not return the buffered byte:
    it falls into the panicking match arm. -/
theorem c8_read_data_counterexample :
    dataReadPpu.addr.get = 0x3000 ∧ read_data dataReadPpu = none := by
  exact ⟨rfl, rfl⟩

/-- C8 amended: a DATA read first bumps ADDR by the CTRL-selected stride
    (1 or 32, modulo the 0x4000 mirror-down); with ADDR in 0x0000–0x1FFF
    (inside CHR) it returns the previously buffered byte and refills the
    buffer from CHR ROM; with ADDR in 0x2000–0x2FFF under vertical or
    horizontal mirroring it returns the buffered byte and refills from
    mirrored VRAM; with ADDR in 0x3F00–0x3F1F it returns the palette byte
    directly, leaving the buffer alone. Reads with ADDR in 0x3000–0x3EFF
    (and palette offsets past 0x3F1F) panic instead. -/
theorem c8_read_data_amended (p : Ppu)
    (hhi : p.addr.hi < 256) (hlo : p.addr.lo < 256) (hget : p.addr.get ≤ 0x3FFF) :
    ((inc_vram_addr p).addr.get
        = (p.addr.get + (if fr_is_raised p.ctrl VramAddrIncrement then 32 else 1)) % 0x4000)
    ∧ (p.addr.get ≤ 0x1FFF → p.addr.get < p.chrLen →
        read_data p = some (p.internal_data_buffer,
          { inc_vram_addr p with internal_data_buffer := p.chr p.addr.get }))
    ∧ (0x2000 ≤ p.addr.get → p.addr.get ≤ 0x2FFF → p.mirroring ≠ .FourScreen →
        read_data p = some (p.internal_data_buffer,
          { inc_vram_addr p with
              internal_data_buffer := p.vram (mirror_vram p.mirroring p.addr.get) }))
    ∧ (0x3F00 ≤ p.addr.get → p.addr.get ≤ 0x3F1F →
        read_data p = (palette_read p.palette p.addr.get).map (fun v => (v, inc_vram_addr p))
          ∧ (palette_read p.palette p.addr.get).isSome = true) := by
  refine ⟨?_, ?_, ?_, ?_⟩
  · simp only [inc_vram_addr, vram_add_inc]
    split_ifs with hc
    · exact addr_inc_get p.addr 32 hhi hlo hget (by norm_num)
    · exact addr_inc_get p.addr 1 hhi hlo hget (by norm_num)
  · intro ha hchr
    simp only [read_data, inc_vram_addr, chr_get, read_and_store]
    rw [if_pos ha, if_pos hchr]
    rfl
  · intro ha1 ha2 hm
    have hlt := mirror_vram_lt p.mirroring p.addr.get hm ha1 ha2
    simp only [read_data, inc_vram_addr, vram_get, read_and_store]
    rw [if_neg (by omega), if_pos (by omega), if_pos hlt]
    rfl
  · intro ha1 ha2
    refine ⟨?_, palette_read_range p.palette p.addr.get ha1 ha2⟩
    simp only [read_data, inc_vram_addr]
    rw [if_neg (by omega), if_neg (by omega), if_pos (by constructor <;> omega)]

/-- C8 witness: the amended statement applied at the concrete PPU whose
    ADDR holds the VRAM address 0x2005 with stride 32 selected. -/
theorem c8_read_data_amended_witness :
    ((inc_vram_addr dataReadWitnessPpu).addr.get
        = (dataReadWitnessPpu.addr.get
            + (if fr_is_raised dataReadWitnessPpu.ctrl VramAddrIncrement then 32 else 1)) % 0x4000)
      ∧ read_data dataReadWitnessPpu = some (dataReadWitnessPpu.internal_data_buffer,
          { inc_vram_addr dataReadWitnessPpu with
              internal_data_buffer :=
                dataReadWitnessPpu.vram
                  (mirror_vram dataReadWitnessPpu.mirroring dataReadWitnessPpu.addr.get) }) := by
  have h := c8_read_data_amended dataReadWitnessPpu (by decide) (by decide) (by decide)
  exact ⟨h.1, h.2.2.1 (by decide) (by decide) (by decide)⟩

/-! ## C9 -/

/-- C9: on every bus state, a CPU read of any write-only PPU register
    (CTRL 0x2000, MASK 0x2001, OAMADDR 0x2003, SCROLL 0x2005, ADDR 0x2006,
    OAMDMA 0x4014) reaches the panicking match arm, and a CPU write of any
    value to the read-only STATUS register 0x2002 panics as well; none of
    these accesses produces a value or a successor state. -/
theorem c9_register_access_errors (b : Bus) (val : Nat) :
    busRead b 0x2000 = none ∧ busRead b 0x2001 = none ∧ busRead b 0x2003 = none
      ∧ busRead b 0x2005 = none ∧ busRead b 0x2006 = none ∧ busRead b OAM_DMA = none
      ∧ busWrite b 0x2002 val = none := by
  refine ⟨?_, ?_, ?_, ?_, ?_, ?_, ?_⟩ <;>
    first
    | (rw [busRead]; norm_num [OAM_DMA])
    | (rw [busWrite]; norm_num)

/-! ## C10 -/

/-- The emitted 2-bit value of a tile-reader step packs bit 7 of the upper
    plane above bit 7 of the lower plane. -/
lemma emit_val (u l : Nat) :
    (u &&& 0x80) >>> 6 ||| (l &&& 0x80) >>> 7
      = 2 * (u.testBit 7).toNat + (l.testBit 7).toNat := by
  have hu7 : u &&& 0x80 = (u.testBit 7).toNat * 2 ^ 7 := Nat.and_two_pow u 7
  have hl7 : l &&& 0x80 = (l.testBit 7).toNat * 2 ^ 7 := Nat.and_two_pow l 7
  rw [hu7, hl7]
  cases u.testBit 7 <;> cases l.testBit 7 <;> decide

/-- Bit 7 of a byte shifted left by x and wrapped is bit 7 - x of the
    original byte, for x up to 7. -/
lemma testBit7_shift (t x : Nat) (ht : t < 256) (hx : x ≤ 7) :
    ((t <<< x) % 256).testBit 7 = t.testBit (7 - x) := by
  rw [Nat.shiftLeft_eq]
  interval_cases x <;>
    · rw [Nat.testBit_to_div_mod, Nat.testBit_to_div_mod]
      apply decide_eq_decide.mpr
      norm_num
      omega

/-- Shifting the wrapped plane one more step equals wrapping the plane
    shifted one step further. -/
lemma shift_step (t x : Nat) :
    (((t <<< x) % 256) <<< 1) % 256 = (t <<< (x + 1)) % 256 := by
  rw [Nat.shiftLeft_eq, Nat.shiftLeft_eq, Nat.shiftLeft_eq,
    show (2 : Nat) ^ 1 = 2 by norm_num, pow_succ, ← Nat.mul_assoc]
  generalize t * 2 ^ x = a
  omega

/-- Closed form of the tile-reader iteration: the (k+1)-th next call emits
    the 2-bit colour of row k / 8, column k mod 8, and leaves the reader
    in the closed-form state. -/
lemma tile_run_closed (tile : Nat → Nat) (hb : ∀ i, i < 16 → tile i < 256) :
    ∀ k, k < 64 →
      TileReader.run tile k
        = some (2 * ((tile (k / 8)).testBit (7 - k % 8)).toNat
                  + ((tile (k / 8 + 8)).testBit (7 - k % 8)).toNat,
                TileReader.afterState tile k) := by
  intro k
  induction k with
  | zero =>
    intro _
    show TileReader.next (TileReader.new tile) = _
    rw [TileReader.next]
    simp only [TileReader.new, TileReader.afterState]
    norm_num
    rw [emit_val]
  | succ k ih =>
    intro hk
    show (match TileReader.run tile k with
      | some (_, tr) => TileReader.next tr
      | none => none) = _
    rw [ih (by omega)]
    show TileReader.next (TileReader.afterState tile k) = _
    have hy : k / 8 < 8 := by omega
    rcases Nat.lt_or_ge (k % 8) 7 with hx | hx
    · -- mid-row step: the column counter is below 8
      have hne : k % 8 + 1 ≠ 8 := by omega
      rw [TileReader.next]
      simp only [TileReader.afterState, if_neg hne]
      have h1 : (k + 1) % 8 = k % 8 + 1 := by omega
      have h2 : (k + 1) / 8 = k / 8 := by omega
      rw [emit_val,
        testBit7_shift _ _ (hb _ (by omega)) (by omega),
        testBit7_shift _ _ (hb _ (by omega)) (by omega),
        shift_step, shift_step]
      simp only [TileReader.afterState, h1, h2]
    · -- row rollover: the column counter reached 8
      have hx7 : k % 8 = 7 := by omega
      have h1 : (k + 1) % 8 = 0 := by omega
      have h2 : (k + 1) / 8 = k / 8 + 1 := by omega
      have hy7 : ¬ (k / 8 + 1 = 8) := by omega
      simp only [TileReader.next, TileReader.afterState, hx7]
      rw [if_pos trivial, if_neg hy7, emit_val]
      simp only [h1, h2]

/-- After the 64 values are out, every further next call returns none. -/
lemma tile_run_exhausted (tile : Nat → Nat) (hb : ∀ i, i < 16 → tile i < 256) :
    TileReader.run tile 64 = none := by
  show (match TileReader.run tile 63 with
    | some (_, tr) => TileReader.next tr
    | none => none) = none
  rw [tile_run_closed tile hb 63 (by omega)]
  rfl

/-- C10: the tile reader on a 16-byte tile yields exactly 64 values in
    row-major order: the value at position 8*y + x is twice bit 7-x of
    tile byte y plus bit 7-x of tile byte y + 8, every emitted value is
    below 4, and the 65-th call returns none. -/
theorem c10_tile_reader (tile : Nat → Nat) (hb : ∀ i, i < 16 → tile i < 256) :
    (∀ y x, y < 8 → x < 8 →
      (TileReader.run tile (8 * y + x)).map Prod.fst
        = some (2 * ((tile y).testBit (7 - x)).toNat
                  + ((tile (y + 8)).testBit (7 - x)).toNat))
    ∧ TileReader.run tile 64 = none
    ∧ (∀ k v tr, TileReader.run tile k = some (v, tr) → v < 4) := by
  refine ⟨?_, tile_run_exhausted tile hb, ?_⟩
  · intro y x hy hx
    have hdiv : (8 * y + x) / 8 = y := by omega
    have hmod : (8 * y + x) % 8 = x := by omega
    rw [tile_run_closed tile hb (8 * y + x) (by omega)]
    simp [hdiv, hmod]
  · intro k v tr h
    rcases Nat.lt_or_ge k 64 with hk | hk
    · rw [tile_run_closed tile hb k hk] at h
      have hv : v = 2 * ((tile (k / 8)).testBit (7 - k % 8)).toNat
          + ((tile (k / 8 + 8)).testBit (7 - k % 8)).toNat := by
        simpa using congrArg (Option.map Prod.fst) h.symm
      have b1 : ((tile (k / 8)).testBit (7 - k % 8)).toNat ≤ 1 := Bool.toNat_le _
      have b2 : ((tile (k / 8 + 8)).testBit (7 - k % 8)).toNat ≤ 1 := Bool.toNat_le _
      omega
    · exfalso
      have hnone : ∀ j, TileReader.run tile (64 + j) = none := by
        intro j
        induction j with
        | zero => exact tile_run_exhausted tile hb
        | succ n ihn =>
          show (match TileReader.run tile (64 + n) with
            | some (_, tr) => TileReader.next tr
            | none => none) = none
          rw [ihn]
      have := hnone (k - 64)
      rw [show 64 + (k - 64) = k by omega] at this
      rw [this] at h
      exact Option.noConfusion h

/-- C10 witness: the theorem applied at the 16-byte tile from the
    repository's tile_reader test. -/
theorem c10_tile_reader_witness :
    (∀ y x, y < 8 → x < 8 →
      (TileReader.run witnessTile (8 * y + x)).map Prod.fst
        = some (2 * ((witnessTile y).testBit (7 - x)).toNat
                  + ((witnessTile (y + 8)).testBit (7 - x)).toNat))
    ∧ TileReader.run witnessTile 64 = none
    ∧ (∀ k v tr, TileReader.run witnessTile k = some (v, tr) → v < 4) :=
  c10_tile_reader witnessTile (by decide)

end Nove
